import Mathlib

/-!
Verification of the authenticated request dispatcher of the find-api Go
client library.  The development shallowly embeds the dispatcher core
(`Client.doRequest`, `Client.getValidToken`, `Client.getRetryAfter`,
`Client.decodeResponse` and the error taxonomy of `errors.go`) and proves
the behavioural properties stated in the specification.

Modelling conventions:
* Go `time.Duration` values and `time.Time` instants are integers counting
  nanoseconds (durations) resp. nanoseconds since the Unix epoch (instants).
* Machine-integer overflow checks of the Go standard library are kept with
  their exact `uint64` bounds, computed over `Nat`.
* The network transport, the wall clock and the `select` nondeterminism are
  oracle parameters of the embedding, so a run of the dispatcher is a pure
  function of those oracles.
-/

namespace FindApi

/-- One nanosecond, the unit of the duration model (Go `time.Duration`). -/
def nanosecond : Int := 1

/-- Go `time.Second` in nanoseconds. -/
def second : Int := 1000000000

/-- Go `time.Minute` in nanoseconds. -/
def minute : Int := 60 * second

/-! ### Model of Go `time.ParseDuration`

`Client.getRetryAfter` calls `time.ParseDuration(retryAfter + "s")`.  The
parser below follows the Go standard library implementation
(`time/format.go`): sign, the special case `"0"`, then a sequence of
`number [fraction] unit` groups summed in nanoseconds, with the library's
`uint64` overflow guards.  The fractional contribution
`uint64(float64(f) * (float64(unit) / scale))` is modelled by the exact
integer quotient `f * unit / scale`, which agrees with the float
computation for all magnitudes exercised here. -/

/-- Whether a character is an ASCII decimal digit. -/
def isDigitChar (c : Char) : Bool := '0' ≤ c && c ≤ '9'

/-- Numeric value of an ASCII digit character. -/
def digitVal (c : Char) : Nat := c.toNat - '0'.toNat

/-- Go `leadingInt`: consume leading digits accumulating into `x`;
fails (returns `none`) on `uint64` overflow, using Go's exact guards
`x > (1<<63)/10` before and `x > 1<<63` after each step. -/
def leadingInt : List Char → Nat → Option (Nat × List Char)
  | [], x => some (x, [])
  | c :: rest, x =>
    if isDigitChar c then
      if x > 922337203685477580 then none
      else
        let y := x * 10 + digitVal c
        if y > 9223372036854775808 then none
        else leadingInt rest y
    else some (x, c :: rest)

/-- Go `leadingFraction`: consume digits after the decimal point, tracking
the value `x`, the scale `10^k`, and a sticky overflow flag that stops the
accumulation without failing the parse. -/
def leadingFraction : List Char → Nat → Nat → Bool → Nat × Nat × List Char
  | [], x, scale, _ => (x, scale, [])
  | c :: rest, x, scale, ovf =>
    if isDigitChar c then
      if ovf then leadingFraction rest x scale ovf
      else if x > 922337203685477580 then leadingFraction rest x scale true
      else
        let y := x * 10 + digitVal c
        if y > 9223372036854775808 then leadingFraction rest x scale true
        else leadingFraction rest y (scale * 10) false
    else (x, scale, c :: rest)

/-- Consume the unit name: the maximal run of characters that are neither a
digit nor a decimal point. -/
def takeUnit : List Char → List Char × List Char
  | [] => ([], [])
  | c :: rest =>
    if c = '.' || isDigitChar c then ([], c :: rest)
    else
      let (u, r) := takeUnit rest
      (c :: u, r)

/-- Go's `unitMap`: nanoseconds per unit name. -/
def unitMap : List Char → Option Nat
  | ['n', 's'] => some 1
  | ['u', 's'] => some 1000
  | ['µ', 's'] => some 1000
  | ['μ', 's'] => some 1000
  | ['m', 's'] => some 1000000
  | ['s'] => some 1000000000
  | ['m'] => some 60000000000
  | ['h'] => some 3600000000000
  | _ => none

/-- The `(\.[0-9]*)?` step of a `ParseDuration` group: on a leading
decimal point, consume the fraction digits; otherwise leave the input
untouched.  Returns `(f, scale, rest, post)` where `post` records whether
fraction digits were consumed. -/
def fractionPart : List Char → Nat × Nat × List Char × Bool
  | '.' :: s1tl =>
    let (f, scale, rem) := leadingFraction s1tl 0 1 false
    (f, scale, rem, decide (rem.length < s1tl.length))
  | s1 => (0, 1, s1, false)

/-- The group loop of `time.ParseDuration`, with fuel (each successful
group consumes at least one character, so `length + 1` fuel suffices).
Accumulates the total nanoseconds `d`; `none` is a parse error. -/
def parseDurationLoop : Nat → List Char → Nat → Option Nat
  | 0, _, _ => none
  | _ + 1, [], d => some d
  | fuel + 1, cs@(c :: _), d =>
    if !(c = '.' || isDigitChar c) then none
    else
      match leadingInt cs 0 with
      | none => none
      | some (v0, s1) =>
        let pre := decide (s1.length < cs.length)
        let (f, scale, s2, post) := fractionPart s1
        if !pre && !post then none
        else
          let (u, s3) := takeUnit s2
          if u = [] then none
          else
            match unitMap u with
            | none => none
            | some unit =>
              if v0 > 9223372036854775808 / unit then none
              else
                let v1 := v0 * unit
                let v2 := if f > 0 then v1 + f * unit / scale else v1
                if f > 0 && v2 > 9223372036854775808 then none
                else
                  let dNew := d + v2
                  if dNew > 9223372036854775808 then none
                  else parseDurationLoop fuel s3 dNew

/-- Model of Go `time.ParseDuration`: returns the duration in nanoseconds,
or `none` on a parse error. -/
def parseDuration (str : String) : Option Int :=
  let s0 := str.data
  let neg : Bool :=
    match s0 with
    | c :: _ => c = '-'
    | [] => false
  let s1 : List Char :=
    match s0 with
    | c :: rest => if c = '-' || c = '+' then rest else s0
    | [] => s0
  if s1 = ['0'] then some 0
  else if s1 = [] then none
  else
    match parseDurationLoop (s1.length + 1) s1 0 with
    | none => none
    | some d =>
      if neg then some (-(d : Int))
      else if d > 9223372036854775807 then none
      else some (d : Int)

/-! ### Model of Go `net/http.ParseTime` on the canonical HTTP time format

`Client.getRetryAfter` falls back to `http.ParseTime(retryAfter)`.  The
model parses the preferred IMF-fixdate layout `Mon, 02 Jan 2006 15:04:05 GMT`
(Go's `http.TimeFormat`, the first layout `http.ParseTime` tries and the only
one servers are required to emit); the two obsolete fallback layouts of the
standard library are not modelled.  Field ranges are validated as
`time.Parse` does (named month, day within the month, hour < 24,
minute/second < 60); the weekday name must be well-formed but is not checked
against the date, as in Go. -/

/-- Three-letter weekday names accepted by the layout. -/
def dayNames : List (List Char) :=
  [['S','u','n'], ['M','o','n'], ['T','u','e'], ['W','e','d'],
   ['T','h','u'], ['F','r','i'], ['S','a','t']]

/-- Month number (1-12) from its three-letter English name. -/
def monthNum : List Char → Option Nat
  | ['J','a','n'] => some 1
  | ['F','e','b'] => some 2
  | ['M','a','r'] => some 3
  | ['A','p','r'] => some 4
  | ['M','a','y'] => some 5
  | ['J','u','n'] => some 6
  | ['J','u','l'] => some 7
  | ['A','u','g'] => some 8
  | ['S','e','p'] => some 9
  | ['O','c','t'] => some 10
  | ['N','o','v'] => some 11
  | ['D','e','c'] => some 12
  | _ => none

/-- Whether a year is a leap year (Gregorian rule). -/
def isLeapYear (y : Nat) : Bool := y % 4 = 0 && (y % 100 ≠ 0 || y % 400 = 0)

/-- Number of days in a month of a given year. -/
def daysInMonth (m y : Nat) : Nat :=
  if m = 2 then if isLeapYear y then 29 else 28
  else if m = 4 ∨ m = 6 ∨ m = 9 ∨ m = 11 then 30
  else 31

/-- Days from 0000-03-01 (era base) to year `y`, month `m`, day `d`
(civil-from-days algorithm over `Nat`; valid for `y ≥ 1`). -/
def daysFromCivil (y m d : Nat) : Nat :=
  let yAdj := if m ≤ 2 then y - 1 else y
  let era := yAdj / 400
  let yoe := yAdj - era * 400
  let doy := (153 * (if m > 2 then m - 3 else m + 9) + 2) / 5 + d - 1
  let doe := yoe * 365 + yoe / 4 - yoe / 100 + doy
  era * 146097 + doe

/-- Unix time (nanoseconds since epoch) of a UTC civil date-time. -/
def unixNanos (y m d h mi s : Nat) : Int :=
  (((daysFromCivil y m d : Int) - 719468) * 86400
    + (h : Int) * 3600 + (mi : Int) * 60 + (s : Int)) * second

/-- Model of `http.ParseTime` restricted to the IMF-fixdate layout: returns
the instant in nanoseconds since the Unix epoch, or `none` on failure. -/
def parseHTTPDate (str : String) : Option Int :=
  match str.data with
  | [w1, w2, w3, ',', ' ', d1, d2, ' ', m1, m2, m3, ' ',
     y1, y2, y3, y4, ' ', h1, h2, ':', n1, n2, ':', s1, s2,
     ' ', 'G', 'M', 'T'] =>
    if dayNames.contains [w1, w2, w3]
        && isDigitChar d1 && isDigitChar d2
        && isDigitChar y1 && isDigitChar y2 && isDigitChar y3 && isDigitChar y4
        && isDigitChar h1 && isDigitChar h2
        && isDigitChar n1 && isDigitChar n2
        && isDigitChar s1 && isDigitChar s2 then
      match monthNum [m1, m2, m3] with
      | none => none
      | some mon =>
        let day := digitVal d1 * 10 + digitVal d2
        let year := ((digitVal y1 * 10 + digitVal y2) * 10 + digitVal y3) * 10
          + digitVal y4
        let hour := digitVal h1 * 10 + digitVal h2
        let minu := digitVal n1 * 10 + digitVal n2
        let sec := digitVal s1 * 10 + digitVal s2
        if 1 ≤ day && day ≤ daysInMonth mon year
            && hour < 24 && minu < 60 && sec < 60 then
          some (unixNanos year mon day hour minu sec)
        else none
    else none
  | _ => none

/-! ### The dispatcher core (`client.go` part of the `findapi` package) -/

/-- The parts of an `*http.Response` the dispatcher core inspects: the
status code, the `Retry-After` header (Go's `Header.Get` yields `""` when
the header is absent) and the body text. -/
structure HttpResponse where
  statusCode : Nat
  retryAfterHeader : String
  body : String
deriving Repr, DecidableEq

/-- The error values the dispatcher core can produce, mirroring `errors.go`
and the `fmt.Errorf("...: %w", err)` wrapping sites: `rateLimit` is
`*RateLimitError`, `api` is `*APIError`, `wrapped ctx e` is a
`fmt.Errorf` wrap of `e` with context text `ctx`, `errText` is any other
plain error (transport failures, JSON decode errors), and `ctxCanceled` is
the caller context's cancellation error (`ctx.Err()`). -/
inductive GoError where
  | rateLimit (retryAfter : Int)
  | api (statusCode : Nat) (message : String)
  | wrapped (ctx : String) (inner : GoError)
  | errText (msg : String)
  | ctxCanceled
deriving Repr, DecidableEq

/-- `IsRateLimitError` from `errors.go`: a direct type assertion to
`*RateLimitError`, which does not unwrap. -/
def IsRateLimitError : GoError → Bool
  | .rateLimit _ => true
  | _ => false

/-- `IsAPIError` from `errors.go`: a direct type assertion to `*APIError`,
which does not unwrap. -/
def IsAPIError : GoError → Bool
  | .api _ _ => true
  | _ => false

/-- `Client.getRetryAfter`: extract the retry delay from a 429 response.
`nowNs` is the wall clock at the moment of extraction (`time.Until t` is
`t - now`). -/
def getRetryAfter (nowNs : Int) (resp : HttpResponse) : Int :=
  let retryAfter := resp.retryAfterHeader
  if retryAfter = "" then second
  else
    match parseDuration (retryAfter ++ "s") with
    | some seconds => seconds
    | none =>
      match parseHTTPDate retryAfter with
      | some t => t - nowNs
      | none => second

/-! ### Token cache (`Client.getValidToken`, `auth.Service.GenerateToken`) -/

/-- `auth.TokenResponse`: the credential-exchange reply.  `exp` and `iat`
are Unix timestamps in seconds, as decoded from the JSON body. -/
structure TokenResponse where
  accessToken : String
  tokenType : String
  expiresIn : Int
  refreshToken : String
  scope : String
  exp : Int
  iat : Int
deriving Repr, DecidableEq

/-- The token-cache fields of `Client` guarded by `tokenMu`:
`accessToken` (empty string when absent) and `tokenExpiry` (nanoseconds
since epoch; `time.Unix(exp, 0)`). -/
structure ClientState where
  accessToken : String
  tokenExpiry : Int
deriving Repr, DecidableEq

/-- The validity test of `getValidToken`:
`token != "" && time.Now().Add(time.Minute).Before(expiry)`
(`Before` is a strict comparison). -/
def tokenStillValid (now : Int) (token : String) (expiry : Int) : Bool :=
  token ≠ "" && now + minute < expiry

/-- `Client.getValidToken`.  The credential exchange
(`c.Auth.GenerateToken(ctx, 10*time.Minute)`, a network call) is the oracle
`gen`.  `now` is the wall clock of this call; both the read-locked fast
check and the write-locked double check evaluate the same condition, and in
this serialized model no other caller can interleave between them.  The
returned `Bool` records whether the credential exchange was invoked. -/
def getValidToken (now : Int) (gen : Except GoError TokenResponse)
    (st : ClientState) : Except GoError String × ClientState × Bool :=
  -- fast path under the read lock
  if tokenStillValid now st.accessToken st.tokenExpiry then
    (.ok st.accessToken, st, false)
  -- double-check after acquiring the write lock
  else if tokenStillValid now st.accessToken st.tokenExpiry then
    (.ok st.accessToken, st, false)
  else
    match gen with
    | .error e => (.error (.wrapped "failed to generate token" e), st, true)
    | .ok tr =>
      let stNew : ClientState :=
        { accessToken := tr.accessToken, tokenExpiry := tr.exp * second }
      (.ok tr.accessToken, stNew, true)

/-- `N` callers invoking `getValidToken` with the lock serializing their
critical sections in list order: caller `i` runs at wall-clock time
`times[i]` against the state left by its predecessors.  Returns the final
state and the total number of credential-exchange calls observed. -/
def runConcurrentCallers (gen : Except GoError TokenResponse) :
    List Int → ClientState → ClientState × Nat
  | [], st => (st, 0)
  | t :: rest, st =>
    let (_, st1, used) := getValidToken t gen st
    let (st2, n) := runConcurrentCallers gen rest st1
    (st2, (if used then 1 else 0) + n)

/-! ### The retry loop of `Client.doRequest` -/

/-- Observable events of one dispatcher call: a token-cache lookup
(`getValidToken`), a transport call (`httpClient.Do`) with the request's
`Authorization` header, and a completed retry wait
(`<-time.After(retryAfter)`). -/
inductive Event where
  | tokenFetch
  | transportCall (authHeader : Option String)
  | waited (d : Int)
deriving Repr, DecidableEq

/-- Whether an event is a transport call. -/
def Event.isTransport : Event → Bool
  | .transportCall _ => true
  | _ => false

/-- Number of transport calls recorded in a trace. -/
def transportCalls (tr : List Event) : Nat :=
  (tr.filter Event.isTransport).length

/-- The environment of one `doRequest` call: `transport i` is the outcome
of the `i`-th `httpClient.Do` call (`.error msg` is a transport-level Go
error); `cancelDuringWait i` resolves the `select` after the `i`-th call —
`true` means `ctx.Done()` fires before `time.After(retryAfter)`;
`nowAt i` is the wall clock while the `i`-th response is processed. -/
structure DispatchEnv where
  transport : Nat → Except String HttpResponse
  cancelDuringWait : Nat → Bool
  nowAt : Nat → Int

/-- `maxRetries` from `doRequest`. -/
def maxRetries : Nat := 3

/-- The `for i := 0; i < maxRetries; i++` loop of `doRequest`.  `callIdx`
is the loop counter `i` and `left` the remaining iterations
`maxRetries - i`, so the Go guard `i < maxRetries-1` is `left > 1`.  On a
429 the delay is extracted; with budget remaining the body is closed and
the `select` either continues after the wait or returns `ctx.Err()`; on the
last attempt a `*RateLimitError` carrying the last delay is returned.  Any
other status breaks the loop and the raw response is returned with no
error.  Returns the result and the event trace. -/
def retryLoop (env : DispatchEnv) (hdr : Option String) :
    Nat → Nat → Except GoError HttpResponse × List Event
  | _, 0 => (.error (.errText "loop exhausted"), [])
  | callIdx, left + 1 =>
    match env.transport callIdx with
    | .error msg =>
      (.error (.wrapped "request failed" (.errText msg)), [.transportCall hdr])
    | .ok resp =>
      if resp.statusCode = 429 then
        let retryAfter := getRetryAfter (env.nowAt callIdx) resp
        if left > 0 then
          if env.cancelDuringWait callIdx then
            (.error .ctxCanceled, [.transportCall hdr])
          else
            let (res, tr) := retryLoop env hdr (callIdx + 1) left
            (res, .transportCall hdr :: .waited retryAfter :: tr)
        else
          (.error (.rateLimit retryAfter), [.transportCall hdr])
      else
        (.ok resp, [.transportCall hdr])

/-- `Client.doRequest`: for a non-auth path, fetch a valid bearer token
once (failing fast with the `"failed to get valid token"` wrap), set the
`Authorization` header on the single request value, and run the retry
loop; the auth endpoint `/auth/v1/generate` skips the token step.  URL
construction and request creation, which cannot fail for well-formed
inputs, are not modelled.  `now` is the wall clock of the token check and
`gen` the credential-exchange oracle.  Returns the result, the trace and
the client state after the call. -/
def doRequest (env : DispatchEnv) (path : String) (now : Int)
    (gen : Except GoError TokenResponse) (st : ClientState) :
    Except GoError HttpResponse × List Event × ClientState :=
  if path ≠ "/auth/v1/generate" then
    match getValidToken now gen st with
    | (.error e, st1, _) =>
      (.error (.wrapped "failed to get valid token" e), [.tokenFetch], st1)
    | (.ok token, st1, _) =>
      let (res, tr) := retryLoop env (some ("Bearer " ++ token)) 0 maxRetries
      (res, .tokenFetch :: tr, st1)
  else
    let (res, tr) := retryLoop env none 0 maxRetries
    (res, tr, st)

/-! ### Decode contract (`Client.decodeResponse`) -/

/-- `Client.decodeResponse`.  The caller's target shape `v any` is
modelled by `dec`: `none` is a `nil` target (no decoding), and
`some d` is a non-nil target whose JSON unmarshalling of the body either
succeeds or fails with message `msg` (`json.Decoder.Decode`).  A non-2xx
status yields an `*APIError` with the status code and raw body; a decode
failure on a successful status yields the `"failed to decode response"`
wrap of the JSON error. -/
def decodeResponse (dec : Option (String → Except String Unit))
    (resp : HttpResponse) : Except GoError Unit :=
  if resp.statusCode < 200 || 300 ≤ resp.statusCode then
    .error (.api resp.statusCode resp.body)
  else
    match dec with
    | none => .ok ()
    | some d =>
      match d resp.body with
      | .error msg => .error (.wrapped "failed to decode response" (.errText msg))
      | .ok _ => .ok ()

/-! ### Auxiliary definitions for the statements -/

/-- Whether an event is a token-cache lookup. -/
def Event.isTokenFetch : Event → Bool
  | .tokenFetch => true
  | _ => false

/-- Number of token-cache lookups recorded in a trace. -/
def tokenFetches (tr : List Event) : Nat :=
  (tr.filter Event.isTokenFetch).length

/-- Decimal value of a digit string (most significant digit first). -/
def digitsValue (cs : List Char) : Nat :=
  cs.foldl (fun a c => a * 10 + digitVal c) 0

/-- The retry-delay policy exactly as the specification words it (the
spec-side definition, for comparison with `getRetryAfter`): if the header
value parses as an integer number of seconds (a non-empty string of
decimal digits), the delay is that many seconds; failing that, parse it as
an HTTP-date and take the delta to now; failing both, default to
1 second. -/
def retryDelaySpecified (nowNs : Int) (hdr : String) : Int :=
  if hdr.data ≠ [] ∧ hdr.data.all isDigitChar then
    (digitsValue hdr.data : Int) * second
  else
    match parseHTTPDate hdr with
    | some t => t - nowNs
    | none => second

/-! ### Concrete fixtures used by the witness theorems -/

/-- A 429 response with `Retry-After: 1`. -/
def respRL1 : HttpResponse :=
  { statusCode := 429, retryAfterHeader := "1", body := "" }

/-- A successful 200 response. -/
def respOK200 : HttpResponse :=
  { statusCode := 200, retryAfterHeader := "", body := "payload" }

/-- A 404 response. -/
def resp404 : HttpResponse :=
  { statusCode := 404, retryAfterHeader := "", body := "not found" }

/-- Transport answering 429 with `Retry-After: 1` on every attempt. -/
def envAll429 : DispatchEnv :=
  { transport := fun _ => .ok respRL1,
    cancelDuringWait := fun _ => false,
    nowAt := fun _ => 0 }

/-- Transport answering 429 first, then 200. -/
def envRecover : DispatchEnv :=
  { transport := fun i => .ok (if i = 0 then respRL1 else respOK200),
    cancelDuringWait := fun _ => false,
    nowAt := fun _ => 0 }

/-- Transport answering 429 with the caller's context cancelled during
every retry wait. -/
def envCancelFirst : DispatchEnv :=
  { transport := fun _ => .ok respRL1,
    cancelDuringWait := fun _ => true,
    nowAt := fun _ => 0 }

/-- Transport answering 404 on every attempt. -/
def env404 : DispatchEnv :=
  { transport := fun _ => .ok resp404,
    cancelDuringWait := fun _ => false,
    nowAt := fun _ => 0 }

/-- A cache holding a token valid until t = 1000 seconds. -/
def stCached : ClientState :=
  { accessToken := "cached-token", tokenExpiry := 1000000000000 }

/-- An empty cache (no token yet). -/
def stEmpty : ClientState := { accessToken := "", tokenExpiry := 0 }

/-- A failing credential exchange. -/
def genDown : Except GoError TokenResponse :=
  .error (.errText "connection refused")

/-- A successful credential-exchange reply: a 10-minute token expiring at
Unix time 600. -/
def tokenOK : TokenResponse :=
  { accessToken := "fresh-token", tokenType := "Bearer", expiresIn := 600,
    refreshToken := "", scope := "", exp := 600, iat := 0 }

/-- A target shape whose JSON unmarshalling always fails. -/
def decBad : String → Except String Unit := fun _ => .error "invalid character"

/-! ## Helper lemmas (shared) -/

/-- A valid cached token is returned as-is: fast path of `getValidToken`. -/
theorem getValidToken_valid (now : Int) (gen : Except GoError TokenResponse)
    (st : ClientState)
    (h : tokenStillValid now st.accessToken st.tokenExpiry = true) :
    getValidToken now gen st = (.ok st.accessToken, st, false) := by
  simp only [getValidToken, h, if_true]

/-- A stale cache with a successful exchange refreshes: slow path of
`getValidToken`. -/
theorem getValidToken_stale_refresh (now : Int) (tr : TokenResponse)
    (st : ClientState)
    (h : tokenStillValid now st.accessToken st.tokenExpiry = false) :
    getValidToken now (.ok tr) st =
      (.ok tr.accessToken,
       { accessToken := tr.accessToken, tokenExpiry := tr.exp * second },
       true) := by
  simp only [getValidToken, h, Bool.false_eq_true, if_false]

/-- Callers that all find a valid cached token perform no exchange call
and leave the state unchanged. -/
theorem runConcurrentCallers_all_valid (gen : Except GoError TokenResponse)
    (ts : List Int) (st : ClientState)
    (h : ∀ t ∈ ts, tokenStillValid t st.accessToken st.tokenExpiry = true) :
    runConcurrentCallers gen ts st = (st, 0) := by
  induction ts with
  | nil => rfl
  | cons t ts ih =>
    simp only [runConcurrentCallers,
      getValidToken_valid t gen st (h t (List.mem_cons_self t ts)),
      ih (fun t' ht' => h t' (List.mem_cons_of_mem t ht')),
      Bool.false_eq_true, if_false, Nat.zero_add]

/-! ## Claims about the token cache -/

/-- C4: for every cached token whose expiry is more than the 1-minute
safety margin after the current time, `getValidToken` returns that token's
value immediately, performs zero credential-exchange (network) calls, and
leaves the cache unchanged. -/
theorem getValidToken_fast_path_no_network (now : Int)
    (gen : Except GoError TokenResponse) (st : ClientState)
    (htok : st.accessToken ≠ "") (hexp : now + minute < st.tokenExpiry) :
    getValidToken now gen st = (.ok st.accessToken, st, false) :=
  getValidToken_valid now gen st (by
    simp [tokenStillValid, htok, hexp])

/-- Witness for C4 at a concrete cache state and a failing exchange
oracle: the cached value is returned and the exchange is not invoked. -/
theorem getValidToken_fast_path_no_network_witness :
    stCached.accessToken ≠ "" ∧ (0 : Int) + minute < stCached.tokenExpiry ∧
    getValidToken 0 genDown stCached = (.ok "cached-token", stCached, false) :=
  ⟨by decide, by decide,
   getValidToken_fast_path_no_network 0 genDown stCached (by decide) (by decide)⟩

/-- C5: whenever the credential exchange fails during a token refresh
(the cached token being stale or absent), `getValidToken` returns the
underlying failure wrapped with the token-refresh context marker
`"failed to generate token"`, and the cached token state (`accessToken`
and `tokenExpiry`) is left unchanged so a subsequent call can retry. -/
theorem getValidToken_refresh_failure_preserves_state (now : Int)
    (e : GoError) (st : ClientState)
    (hstale : tokenStillValid now st.accessToken st.tokenExpiry = false) :
    getValidToken now (.error e) st =
      (.error (.wrapped "failed to generate token" e), st, true) := by
  simp only [getValidToken, hstale, Bool.false_eq_true, if_false]

/-- Witness for C5: a failing exchange against an empty cache leaves the
cache empty and surfaces the wrapped failure. -/
theorem getValidToken_refresh_failure_preserves_state_witness :
    tokenStillValid 0 stEmpty.accessToken stEmpty.tokenExpiry = false ∧
    getValidToken 0 genDown stEmpty =
      (.error (.wrapped "failed to generate token" (.errText "connection refused")),
       stEmpty, true) :=
  ⟨by decide,
   getValidToken_refresh_failure_preserves_state 0 (.errText "connection refused")
     stEmpty (by decide)⟩

/-- C9: when several callers invoke `getValidToken` while the cached token
is stale or absent — their lock-serialized critical sections modelled in
invocation order — and the credential exchange answers with a non-empty
token still inside its safety margin at every caller's clock, exactly one
credential-exchange call is observed (the double-checked locking prevents
a refresh stampede). -/
theorem getValidToken_no_refresh_stampede (tr : TokenResponse)
    (t0 : Int) (rest : List Int) (st : ClientState)
    (hstale : tokenStillValid t0 st.accessToken st.tokenExpiry = false)
    (htok : tr.accessToken ≠ "")
    (hfresh : ∀ t ∈ t0 :: rest, t + minute < tr.exp * second) :
    (runConcurrentCallers (.ok tr) (t0 :: rest) st).2 = 1 := by
  simp only [runConcurrentCallers, getValidToken_stale_refresh t0 tr st hstale]
  rw [runConcurrentCallers_all_valid (.ok tr) rest _ (fun t ht => by
    simp [tokenStillValid, htok, hfresh t (List.mem_cons_of_mem _ ht)])]
  simp

/-- Witness for C9: three concurrent callers against an empty cache
trigger exactly one exchange call. -/
theorem getValidToken_no_refresh_stampede_witness :
    tokenStillValid 0 stEmpty.accessToken stEmpty.tokenExpiry = false ∧
    (runConcurrentCallers (.ok tokenOK) [0, 0, 0] stEmpty).2 = 1 :=
  ⟨by decide,
   getValidToken_no_refresh_stampede tokenOK 0 [0, 0] stEmpty
     (by decide) (by decide) (by decide)⟩

/-! ## Helper lemmas about the retry loop -/

/-- One unfolding of the retry loop with fuel left. -/
theorem retryLoop_unfold (env : DispatchEnv) (hdr : Option String)
    (idx left : Nat) :
    retryLoop env hdr idx (left + 1) =
      match env.transport idx with
      | .error msg =>
        (.error (.wrapped "request failed" (.errText msg)), [.transportCall hdr])
      | .ok resp =>
        if resp.statusCode = 429 then
          if left > 0 then
            if env.cancelDuringWait idx then
              (.error .ctxCanceled, [.transportCall hdr])
            else
              let p := retryLoop env hdr (idx + 1) left
              (p.1, .transportCall hdr ::
                .waited (getRetryAfter (env.nowAt idx) resp) :: p.2)
          else
            (.error (.rateLimit (getRetryAfter (env.nowAt idx) resp)),
             [.transportCall hdr])
        else
          (.ok resp, [.transportCall hdr]) := by
  rfl

/-- With a valid cached token, `doRequest` on an authenticated path is the
token fetch followed by the retry loop under the bearer header. -/
theorem doRequest_auth_ok (env : DispatchEnv) (path : String) (now : Int)
    (gen : Except GoError TokenResponse) (st : ClientState)
    (hpath : path ≠ "/auth/v1/generate")
    (hvalid : tokenStillValid now st.accessToken st.tokenExpiry = true) :
    doRequest env path now gen st =
      ((retryLoop env (some ("Bearer " ++ st.accessToken)) 0 maxRetries).1,
       .tokenFetch ::
         (retryLoop env (some ("Bearer " ++ st.accessToken)) 0 maxRetries).2,
       st) := by
  simp only [doRequest, if_pos hpath, getValidToken_valid now gen st hvalid]

/-! ## Claims about the retry loop of `doRequest` -/

/-- C1: a dispatcher call (authenticated, with a valid cached token) in
which each of the three transport attempts returns HTTP 429, and in which
the caller's context stays alive through the retry waits, performs exactly
3 transport calls and returns a Rate-Limit error — not an API error —
whose `RetryAfter` field is the retry-after duration extracted from the
last 429 response. -/
theorem doRequest_429_exhausted_rate_limit (env : DispatchEnv)
    (path : String) (now : Int) (gen : Except GoError TokenResponse)
    (st : ClientState) (resps : Nat → HttpResponse)
    (hpath : path ≠ "/auth/v1/generate")
    (hvalid : tokenStillValid now st.accessToken st.tokenExpiry = true)
    (htr : ∀ i, i < maxRetries → env.transport i = .ok (resps i))
    (h429 : ∀ i, i < maxRetries → (resps i).statusCode = 429)
    (hnc : ∀ i, i < maxRetries - 1 → env.cancelDuringWait i = false) :
    (doRequest env path now gen st).1 =
      .error (.rateLimit (getRetryAfter (env.nowAt 2) (resps 2))) ∧
    transportCalls (doRequest env path now gen st).2.1 = 3 ∧
    IsRateLimitError (.rateLimit (getRetryAfter (env.nowAt 2) (resps 2))) = true ∧
    IsAPIError (.rateLimit (getRetryAfter (env.nowAt 2) (resps 2))) = false := by
  set hdr : Option String := some ("Bearer " ++ st.accessToken) with hhdr
  have h2 : retryLoop env hdr 2 1 =
      (.error (.rateLimit (getRetryAfter (env.nowAt 2) (resps 2))),
       [.transportCall hdr]) := by
    rw [retryLoop_unfold env hdr 2 0, htr 2 (by decide)]
    simp [h429 2 (by decide)]
  have h1 : retryLoop env hdr 1 2 =
      (.error (.rateLimit (getRetryAfter (env.nowAt 2) (resps 2))),
       [.transportCall hdr, .waited (getRetryAfter (env.nowAt 1) (resps 1)),
        .transportCall hdr]) := by
    rw [retryLoop_unfold env hdr 1 1, htr 1 (by decide)]
    simp [h429 1 (by decide), hnc 1 (by decide), h2]
  have h0 : retryLoop env hdr 0 3 =
      (.error (.rateLimit (getRetryAfter (env.nowAt 2) (resps 2))),
       [.transportCall hdr, .waited (getRetryAfter (env.nowAt 0) (resps 0)),
        .transportCall hdr, .waited (getRetryAfter (env.nowAt 1) (resps 1)),
        .transportCall hdr]) := by
    rw [retryLoop_unfold env hdr 0 2, htr 0 (by decide)]
    simp [h429 0 (by decide), hnc 0 (by decide), h1]
  rw [doRequest_auth_ok env path now gen st hpath hvalid]
  rw [show maxRetries = 3 from rfl, ← hhdr, h0]
  refine ⟨rfl, ?_, rfl, rfl⟩
  simp [transportCalls, Event.isTransport]

/-- Witness for C1: persistent 429s with `Retry-After: 1` yield a
Rate-Limit error carrying one second after exactly 3 transport calls. -/
theorem doRequest_429_exhausted_rate_limit_witness :
    (doRequest envAll429 "/flow/v1/node" 0 genDown stCached).1 =
      .error (.rateLimit second) ∧
    transportCalls (doRequest envAll429 "/flow/v1/node" 0 genDown stCached).2.1 = 3 := by
  have h := doRequest_429_exhausted_rate_limit envAll429 "/flow/v1/node" 0
    genDown stCached (fun _ => respRL1) (by decide) (by decide)
    (fun i _ => rfl) (fun i _ => rfl) (fun i _ => rfl)
  have hval : getRetryAfter (envAll429.nowAt 2) respRL1 = second := by decide
  exact ⟨by rw [h.1, hval], h.2.1⟩

/-- C2: a dispatcher call (authenticated, with a valid cached token) whose
first transport attempt returns 429 and whose second returns a 2xx status
returns that second response successfully after exactly 2 transport calls,
and between the two calls waits out exactly the retry-after duration
extracted from the first response (hence at least that duration), the
caller's context staying alive through the wait. -/
theorem doRequest_429_then_success (env : DispatchEnv) (path : String)
    (now : Int) (gen : Except GoError TokenResponse) (st : ClientState)
    (r0 r1 : HttpResponse)
    (hpath : path ≠ "/auth/v1/generate")
    (hvalid : tokenStillValid now st.accessToken st.tokenExpiry = true)
    (ht0 : env.transport 0 = .ok r0) (ht1 : env.transport 1 = .ok r1)
    (h429 : r0.statusCode = 429)
    (h2xxlo : 200 ≤ r1.statusCode) (h2xxhi : r1.statusCode < 300)
    (hnc : env.cancelDuringWait 0 = false) :
    (doRequest env path now gen st).1 = .ok r1 ∧
    (doRequest env path now gen st).2.1 =
      [.tokenFetch, .transportCall (some ("Bearer " ++ st.accessToken)),
       .waited (getRetryAfter (env.nowAt 0) r0),
       .transportCall (some ("Bearer " ++ st.accessToken))] ∧
    transportCalls (doRequest env path now gen st).2.1 = 2 := by
  set hdr : Option String := some ("Bearer " ++ st.accessToken) with hhdr
  have hne : r1.statusCode ≠ 429 := by omega
  have h1 : retryLoop env hdr 1 2 = (.ok r1, [.transportCall hdr]) := by
    rw [retryLoop_unfold env hdr 1 1, ht1]
    simp [hne]
  have h0 : retryLoop env hdr 0 3 =
      (.ok r1, [.transportCall hdr, .waited (getRetryAfter (env.nowAt 0) r0),
                .transportCall hdr]) := by
    rw [retryLoop_unfold env hdr 0 2, ht0]
    simp [h429, hnc, h1]
  rw [doRequest_auth_ok env path now gen st hpath hvalid]
  rw [show maxRetries = 3 from rfl, ← hhdr, h0]
  refine ⟨rfl, rfl, ?_⟩
  simp [transportCalls, Event.isTransport]

/-- Witness for C2: a 429 with `Retry-After: 1` followed by a 200 returns
the 200 after 2 transport calls with a one-second wait in between. -/
theorem doRequest_429_then_success_witness :
    (doRequest envRecover "/flow/v1/node" 0 genDown stCached).1 = .ok respOK200 ∧
    (doRequest envRecover "/flow/v1/node" 0 genDown stCached).2.1 =
      [.tokenFetch, .transportCall (some "Bearer cached-token"),
       .waited second, .transportCall (some "Bearer cached-token")] ∧
    transportCalls (doRequest envRecover "/flow/v1/node" 0 genDown stCached).2.1 = 2 := by
  have h := doRequest_429_then_success envRecover "/flow/v1/node" 0 genDown
    stCached respRL1 respOK200 (by decide) (by decide) rfl
    (by simp [envRecover]) (by decide) (by decide) (by decide) rfl
  have hval : getRetryAfter (envRecover.nowAt 0) respRL1 = second := by decide
  refine ⟨h.1, ?_, h.2.2⟩
  have := h.2.1
  rw [hval] at this
  exact this

/-- C6: if the caller's context is cancelled while the dispatcher is
waiting out the retry delay after the `i`-th 429 response (the select
resolving in favour of `ctx.Done()`), the call returns the context's
cancellation error — which is not a Rate-Limit error — and performs no
transport call beyond the `i + 1` already made. -/
theorem doRequest_cancel_during_retry_wait (env : DispatchEnv)
    (path : String) (now : Int) (gen : Except GoError TokenResponse)
    (st : ClientState) (resps : Nat → HttpResponse) (i : Nat)
    (hpath : path ≠ "/auth/v1/generate")
    (hvalid : tokenStillValid now st.accessToken st.tokenExpiry = true)
    (hi : i < maxRetries - 1)
    (htr : ∀ j, j ≤ i → env.transport j = .ok (resps j))
    (h429 : ∀ j, j ≤ i → (resps j).statusCode = 429)
    (hnc : ∀ j, j < i → env.cancelDuringWait j = false)
    (hc : env.cancelDuringWait i = true) :
    (doRequest env path now gen st).1 = .error .ctxCanceled ∧
    IsRateLimitError .ctxCanceled = false ∧
    transportCalls (doRequest env path now gen st).2.1 = i + 1 := by
  set hdr : Option String := some ("Bearer " ++ st.accessToken) with hhdr
  have hi2 : i = 0 ∨ i = 1 := by
    simp only [maxRetries] at hi; omega
  rw [doRequest_auth_ok env path now gen st hpath hvalid,
    show maxRetries = 3 from rfl, ← hhdr]
  rcases hi2 with h | h <;> subst h
  · have h0 : retryLoop env hdr 0 3 =
        (.error .ctxCanceled, [.transportCall hdr]) := by
      rw [retryLoop_unfold env hdr 0 2, htr 0 (by omega)]
      simp [h429 0 (by omega), hc]
    rw [h0]
    exact ⟨rfl, rfl, by simp [transportCalls, Event.isTransport]⟩
  · have h1 : retryLoop env hdr 1 2 =
        (.error .ctxCanceled, [.transportCall hdr]) := by
      rw [retryLoop_unfold env hdr 1 1, htr 1 (by omega)]
      simp [h429 1 (by omega), hc]
    have h0 : retryLoop env hdr 0 3 =
        (.error .ctxCanceled,
         [.transportCall hdr, .waited (getRetryAfter (env.nowAt 0) (resps 0)),
          .transportCall hdr]) := by
      rw [retryLoop_unfold env hdr 0 2, htr 0 (by omega)]
      simp [h429 0 (by omega), hnc 0 (by omega), h1]
    rw [h0]
    exact ⟨rfl, rfl, by simp [transportCalls, Event.isTransport]⟩

/-- Witness for C6: cancellation during the first retry wait surfaces the
cancellation error after a single transport call. -/
theorem doRequest_cancel_during_retry_wait_witness :
    (doRequest envCancelFirst "/flow/v1/node" 0 genDown stCached).1 =
      .error .ctxCanceled ∧
    transportCalls (doRequest envCancelFirst "/flow/v1/node" 0 genDown stCached).2.1 = 1 := by
  have h := doRequest_cancel_during_retry_wait envCancelFirst "/flow/v1/node" 0
    genDown stCached (fun _ => respRL1) 0 (by decide) (by decide) (by decide)
    (fun j _ => rfl) (fun j _ => rfl) (fun j hj => absurd hj (by omega)) rfl
  exact ⟨h.1, by simpa using h.2.2⟩

/-- C7: a dispatcher call (authenticated, with a valid cached token) whose
first transport attempt returns a non-429, non-2xx status returns that raw
response with no error after exactly 1 transport call; no retry happens. -/
theorem doRequest_non429_single_attempt (env : DispatchEnv) (path : String)
    (now : Int) (gen : Except GoError TokenResponse) (st : ClientState)
    (r0 : HttpResponse)
    (hpath : path ≠ "/auth/v1/generate")
    (hvalid : tokenStillValid now st.accessToken st.tokenExpiry = true)
    (ht0 : env.transport 0 = .ok r0)
    (_hnot2xx : r0.statusCode < 200 ∨ 300 ≤ r0.statusCode)
    (hnot429 : r0.statusCode ≠ 429) :
    (doRequest env path now gen st).1 = .ok r0 ∧
    transportCalls (doRequest env path now gen st).2.1 = 1 := by
  set hdr : Option String := some ("Bearer " ++ st.accessToken) with hhdr
  have h0 : retryLoop env hdr 0 3 = (.ok r0, [.transportCall hdr]) := by
    rw [retryLoop_unfold env hdr 0 2, ht0]
    simp [hnot429]
  rw [doRequest_auth_ok env path now gen st hpath hvalid,
    show maxRetries = 3 from rfl, ← hhdr, h0]
  exact ⟨rfl, by simp [transportCalls, Event.isTransport]⟩

/-- Witness for C7: a 404 is handed back unchanged after one transport
call. -/
theorem doRequest_non429_single_attempt_witness :
    (doRequest env404 "/flow/v1/node" 0 genDown stCached).1 = .ok resp404 ∧
    transportCalls (doRequest env404 "/flow/v1/node" 0 genDown stCached).2.1 = 1 :=
  doRequest_non429_single_attempt env404 "/flow/v1/node" 0 genDown stCached
    resp404 (by decide) (by decide) rfl (by decide) (by decide)

/-- Every event emitted by the retry loop is a transport call under the
fixed header `hdr` or a wait; the loop never touches the token cache. -/
theorem retryLoop_trace_events (env : DispatchEnv) (hdr : Option String) :
    ∀ left idx e, e ∈ (retryLoop env hdr idx left).2 →
      Event.isTokenFetch e = false ∧
      (Event.isTransport e = true → e = .transportCall hdr) := by
  intro left
  induction left with
  | zero =>
    intro idx e he
    simp only [retryLoop, List.not_mem_nil] at he
  | succ n ih =>
    intro idx e he
    rw [retryLoop_unfold] at he
    split at he
    · simp only [List.mem_singleton] at he
      subst he
      exact ⟨rfl, fun _ => rfl⟩
    · split at he
      · split at he
        · split at he
          · simp only [List.mem_singleton] at he
            subst he
            exact ⟨rfl, fun _ => rfl⟩
          · simp only [List.mem_cons] at he
            rcases he with he | he | he
            · subst he; exact ⟨rfl, fun _ => rfl⟩
            · subst he
              exact ⟨rfl, fun h => by simp [Event.isTransport] at h⟩
            · exact ih (idx + 1) e he
        · simp only [List.mem_singleton] at he
          subst he
          exact ⟨rfl, fun _ => rfl⟩
      · simp only [List.mem_singleton] at he
        subst he
        exact ⟨rfl, fun _ => rfl⟩

/-- C10: within a single authenticated `doRequest` call whose token lookup
succeeds, the bearer token is read from the token cache exactly once, as
the very first action (before any transport attempt); every transport
attempt — retries included, whatever the waits in between — carries the
same `Authorization: Bearer` header, and no event after the first is a
token-cache read. -/
theorem doRequest_token_fetched_once (env : DispatchEnv) (path : String)
    (now : Int) (gen : Except GoError TokenResponse) (st : ClientState)
    (tok : String) (st1 : ClientState) (used : Bool)
    (hpath : path ≠ "/auth/v1/generate")
    (hgvt : getValidToken now gen st = (.ok tok, st1, used)) :
    tokenFetches (doRequest env path now gen st).2.1 = 1 ∧
    (doRequest env path now gen st).2.1.head? = some .tokenFetch ∧
    ∀ e ∈ (doRequest env path now gen st).2.1, Event.isTransport e = true →
      e = .transportCall (some ("Bearer " ++ tok)) := by
  simp only [doRequest, if_pos hpath, hgvt]
  refine ⟨?_, rfl, ?_⟩
  · have hnil : (retryLoop env (some ("Bearer " ++ tok)) 0 maxRetries).2.filter
        Event.isTokenFetch = [] := by
      rw [List.filter_eq_nil_iff]
      intro e he
      simp [(retryLoop_trace_events env _ maxRetries 0 e he).1]
    simp [tokenFetches, hnil, Event.isTokenFetch]
  · intro e he htr
    simp only [List.mem_cons] at he
    rcases he with he | he
    · subst he; simp [Event.isTransport] at htr
    · exact (retryLoop_trace_events env _ maxRetries 0 e he).2 htr

/-- Witness for C10: in the all-429 run the trace opens with the single
token fetch and all three transport calls carry the cached bearer
header. -/
theorem doRequest_token_fetched_once_witness :
    tokenFetches (doRequest envAll429 "/flow/v1/node" 0 genDown stCached).2.1 = 1 ∧
    (doRequest envAll429 "/flow/v1/node" 0 genDown stCached).2.1.head? =
      some .tokenFetch ∧
    ∀ e ∈ (doRequest envAll429 "/flow/v1/node" 0 genDown stCached).2.1,
      Event.isTransport e = true →
        e = .transportCall (some "Bearer cached-token") :=
  doRequest_token_fetched_once envAll429 "/flow/v1/node" 0 genDown stCached
    "cached-token" stCached false (by decide) rfl

/-! ## Claim about the decode contract -/

/-- C8: `decodeResponse` yields an API error — carrying exactly the status
code and the raw body text — precisely when the status lies outside
[200,300); for an in-range status, no result is ever classified as an API
error, and with a supplied target shape a body that fails to parse yields
the decode-error wrap, for which `IsAPIError` is `false` — so the two
conditions are distinguishable without string matching. -/
theorem decodeResponse_classification
    (dec : Option (String → Except String Unit)) (resp : HttpResponse) :
    ((resp.statusCode < 200 ∨ 300 ≤ resp.statusCode) →
      decodeResponse dec resp = .error (.api resp.statusCode resp.body) ∧
      IsAPIError (.api resp.statusCode resp.body) = true) ∧
    (200 ≤ resp.statusCode → resp.statusCode < 300 →
      (∀ e, decodeResponse dec resp = .error e → IsAPIError e = false) ∧
      (∀ d msg, dec = some d → d resp.body = .error msg →
        decodeResponse dec resp =
          .error (.wrapped "failed to decode response" (.errText msg)) ∧
        IsAPIError (.wrapped "failed to decode response" (.errText msg)) = false)) := by
  constructor
  · intro hout
    have hcond : (resp.statusCode < 200 || 300 ≤ resp.statusCode) = true := by
      rcases hout with h | h <;> simp [h]
    refine ⟨?_, rfl⟩
    simp only [decodeResponse, hcond, if_true]
  · intro hlo hhi
    have hcond : (resp.statusCode < 200 || 300 ≤ resp.statusCode) = false := by
      simp; omega
    constructor
    · intro e he
      simp only [decodeResponse, hcond, Bool.false_eq_true, if_false] at he
      match dec with
      | none => simp at he
      | some d =>
        simp only at he
        match hres : d resp.body with
        | .error msg =>
          rw [hres] at he
          simp only [Except.error.injEq] at he
          rw [← he]
          rfl
        | .ok u => rw [hres] at he; simp at he
    · intro d msg hdec hres
      refine ⟨?_, rfl⟩
      simp only [decodeResponse, hcond, Bool.false_eq_true, if_false, hdec, hres]

/-- Witness for C8: a 404 yields an API error with its status and body; a
200 with an unparseable body yields the decode wrap, not an API error. -/
theorem decodeResponse_classification_witness :
    decodeResponse (some decBad) resp404 = .error (.api 404 "not found") ∧
    decodeResponse (some decBad) respOK200 =
      .error (.wrapped "failed to decode response" (.errText "invalid character")) ∧
    IsAPIError (.wrapped "failed to decode response" (.errText "invalid character")) = false := by
  have h1 := ((decodeResponse_classification (some decBad) resp404).1 (by decide)).1
  have h2 := ((decodeResponse_classification (some decBad) respOK200).2
    (by decide) (by decide)).2 decBad "invalid character" rfl rfl
  exact ⟨h1, h2.1, h2.2⟩

/-! ## Helper lemmas about `parseDuration` on digit strings -/

/-- A digit character is neither a sign character nor a decimal point
(all three precede `'0'` in code-point order). -/
theorem digit_not_special (c : Char) (h : isDigitChar c = true) :
    ¬ c = '-' ∧ ¬ c = '+' ∧ ¬ c = '.' := by
  have hlo : '0' ≤ c := by
    simp only [isDigitChar, Bool.and_eq_true, decide_eq_true_eq] at h
    exact h.1
  refine ⟨?_, ?_, ?_⟩ <;> rintro rfl <;> revert hlo <;> decide

/-- The decimal accumulator never decreases. -/
theorem digitsAcc_le (ds : List Char) (acc : Nat) :
    acc ≤ ds.foldl (fun a c => a * 10 + digitVal c) acc := by
  induction ds generalizing acc with
  | nil => simp
  | cons c cs ih =>
    simp only [List.foldl_cons]
    exact le_trans (by omega) (ih (acc * 10 + digitVal c))

/-- `leadingInt` consumes exactly a digit prefix and computes its decimal
value when that value stays below the overflow guard. -/
theorem leadingInt_digits (ds rest : List Char) (acc : Nat)
    (hd : ∀ c ∈ ds, isDigitChar c = true)
    (hrest : ∀ c, rest.head? = some c → isDigitChar c = false)
    (hbound : ds.foldl (fun a c => a * 10 + digitVal c) acc ≤ 922337203685477580) :
    leadingInt (ds ++ rest) acc =
      some (ds.foldl (fun a c => a * 10 + digitVal c) acc, rest) := by
  induction ds generalizing acc with
  | nil =>
    simp only [List.nil_append, List.foldl_nil]
    cases rest with
    | nil => rfl
    | cons c rs =>
      simp only [leadingInt, hrest c rfl, Bool.false_eq_true, if_false]
  | cons c cs ih =>
    have hc := hd c (List.mem_cons_self c cs)
    simp only [List.foldl_cons] at hbound
    have hmono := digitsAcc_le cs (acc * 10 + digitVal c)
    simp only [List.cons_append, leadingInt, hc, if_true, List.foldl_cons]
    rw [if_neg (by omega), if_neg (by omega)]
    exact ih (acc * 10 + digitVal c)
      (fun x hx => hd x (List.mem_cons_of_mem c hx)) hbound

/-- On a non-empty digit group followed by the seconds unit, the
`ParseDuration` loop yields the value scaled to nanoseconds. -/
theorem parseDurationLoop_digits (ds : List Char)
    (hne : ds ≠ []) (hd : ∀ c ∈ ds, isDigitChar c = true)
    (hbound : digitsValue ds ≤ 9223372036) :
    parseDurationLoop (ds.length + 2) (ds ++ ['s']) 0 =
      some (digitsValue ds * 1000000000) := by
  obtain ⟨c, cs, rfl⟩ := List.exists_cons_of_ne_nil hne
  have hc := hd c (List.mem_cons_self c cs)
  have hLI := leadingInt_digits (c :: cs) ['s'] 0 hd
    (fun x hx => by simp only [List.head?_cons, Option.some.injEq] at hx
                    subst hx; rfl)
    (le_trans (by simpa [digitsValue] using hbound) (by omega))
  simp only [List.cons_append] at hLI ⊢
  rw [show (c :: cs).length + 2 = ((c :: (cs ++ ['s'])).length) + 1 by simp]
  simp only [parseDurationLoop, hc, Bool.or_true, Bool.not_true,
    Bool.false_eq_true, if_false, hLI]
  have hpre : decide (List.length ['s'] < List.length (c :: (cs ++ ['s']))) = true :=
    decide_eq_true (by simp)
  rw [show fractionPart ['s'] = (0, 1, ['s'], false) from rfl]
  simp only [hpre, Bool.not_true, Bool.not_false, Bool.false_and,
    Bool.false_eq_true, if_false]
  rw [show takeUnit ['s'] = (['s'], []) from rfl]
  simp only [List.cons_ne_self, if_false, reduceCtorEq]
  rw [show unitMap ['s'] = some 1000000000 from rfl]
  simp only [digitsValue, List.foldl_cons, Nat.zero_mul, Nat.zero_add] at hbound ⊢
  rw [if_neg (show ¬ List.foldl (fun a c => a * 10 + digitVal c) (digitVal c) cs >
    9223372036854775808 / 1000000000 by norm_num; omega)]
  norm_num
  intro h
  exact absurd h (by omega)

/-- `time.ParseDuration` on a non-empty decimal digit string with `"s"`
appended (as `getRetryAfter` builds it) yields that many seconds, for
values within the parser's overflow guards. -/
theorem parseDuration_digits (hdr : String) (hne : hdr.data ≠ [])
    (hd : ∀ c ∈ hdr.data, isDigitChar c = true)
    (hbound : digitsValue hdr.data ≤ 9223372036) :
    parseDuration (hdr ++ "s") =
      some ((digitsValue hdr.data : Int) * second) := by
  obtain ⟨c, cs, hds⟩ := List.exists_cons_of_ne_nil hne
  rw [hds] at hd hbound ⊢
  have hdata : (hdr ++ "s").data = c :: (cs ++ ['s']) := by
    rw [String.data_append, hds]; rfl
  have hc : isDigitChar c = true := hd c (List.mem_cons_self c cs)
  have hns := digit_not_special c hc
  have hloop := parseDurationLoop_digits (c :: cs) (by simp) hd hbound
  simp only [List.cons_append] at hloop
  simp only [parseDuration, hdata]
  rw [show (decide (c = '-') : Bool) = false from decide_eq_false hns.1]
  rw [show (decide (c = '+') : Bool) = false from decide_eq_false hns.2.1]
  simp only [Bool.or_false, Bool.false_eq_true, if_false]
  rw [if_neg (show ¬ c :: (cs ++ ['s']) = ['0'] by
    intro h
    have := congrArg List.length h
    simp at this)]
  rw [if_neg (show ¬ c :: (cs ++ ['s']) = [] by simp)]
  rw [show (c :: (cs ++ ['s'])).length + 1 = (c :: cs).length + 2 by simp,
    hloop]
  simp only
  rw [if_neg (show ¬ digitsValue (c :: cs) * 1000000000 > 9223372036854775807 by
    omega)]
  simp [second]

/-! ## Claim C3: the retry-delay extraction policy -/

/-- C3 counterexample: for the header value `"2m"` — which parses neither
as an integer number of seconds nor as an HTTP-date, so the claimed
ordered fallback dictates the 1-second default — `getRetryAfter`, which
feeds the value with `"s"` appended to Go's duration parser (producing
`"2ms"`), yields 2 milliseconds instead. -/
theorem getRetryAfter_claimed_policy_cex :
    "2m".data.all isDigitChar = false ∧
    parseHTTPDate "2m" = none ∧
    retryDelaySpecified 0 "2m" = second ∧
    getRetryAfter 0 { statusCode := 429, retryAfterHeader := "2m", body := "" } =
      2000000 ∧
    getRetryAfter 0 { statusCode := 429, retryAfterHeader := "2m", body := "" } ≠
      retryDelaySpecified 0 "2m" := by
  refine ⟨?_, ?_, ?_, ?_, ?_⟩ <;> decide

/-- C3 (amended): for every 429 response the extracted retry delay follows
the ordered fallback: an absent header yields 1 second; otherwise, if the
header value with `"s"` appended parses under Go's duration syntax, the
delay is that parsed duration — in particular every integer number of
seconds (within the parser's overflow guard) yields exactly that many
seconds, though fractional values and values ending in another unit letter
are accepted too; otherwise, if the value parses as an HTTP-date, the
delay is the delta from now to that date, a past date yielding a
non-positive delay without failure; otherwise the delay is exactly
1 second. -/
theorem getRetryAfter_fallback_policy (nowNs : Int) (resp : HttpResponse) :
    (resp.retryAfterHeader = "" → getRetryAfter nowNs resp = second) ∧
    (∀ d : Int, resp.retryAfterHeader ≠ "" →
      parseDuration (resp.retryAfterHeader ++ "s") = some d →
      getRetryAfter nowNs resp = d) ∧
    (resp.retryAfterHeader.data ≠ [] →
      (∀ c ∈ resp.retryAfterHeader.data, isDigitChar c = true) →
      digitsValue resp.retryAfterHeader.data ≤ 9223372036 →
      getRetryAfter nowNs resp =
        (digitsValue resp.retryAfterHeader.data : Int) * second) ∧
    (∀ t : Int, resp.retryAfterHeader ≠ "" →
      parseDuration (resp.retryAfterHeader ++ "s") = none →
      parseHTTPDate resp.retryAfterHeader = some t →
      getRetryAfter nowNs resp = t - nowNs ∧
      (t ≤ nowNs → getRetryAfter nowNs resp ≤ 0)) ∧
    (resp.retryAfterHeader ≠ "" →
      parseDuration (resp.retryAfterHeader ++ "s") = none →
      parseHTTPDate resp.retryAfterHeader = none →
      getRetryAfter nowNs resp = second) := by
  refine ⟨?_, ?_, ?_, ?_, ?_⟩
  · intro h
    simp [getRetryAfter, h]
  · intro d hne hdur
    simp only [getRetryAfter, if_neg hne, hdur]
  · intro hne hd hbound
    have hne' : resp.retryAfterHeader ≠ "" := by
      intro h; rw [h] at hne; exact hne rfl
    simp only [getRetryAfter, if_neg hne',
      parseDuration_digits resp.retryAfterHeader hne hd hbound]
  · intro t hne hdur hdate
    have h : getRetryAfter nowNs resp = t - nowNs := by
      simp only [getRetryAfter, if_neg hne, hdur, hdate]
    exact ⟨h, fun hpast => by rw [h]; omega⟩
  · intro hne hdur hdate
    simp only [getRetryAfter, if_neg hne, hdur, hdate]

/-- Witness for the amended C3 at concrete inputs: header `"5"` yields 5
seconds; an HTTP-date 10 seconds in the past yields the non-positive delay
−10 s; an unparseable header yields the 1-second default. -/
theorem getRetryAfter_fallback_policy_witness :
    getRetryAfter 0 { statusCode := 429, retryAfterHeader := "5", body := "" } =
      5 * second ∧
    getRetryAfter (10 * second)
      { statusCode := 429,
        retryAfterHeader := "Thu, 01 Jan 1970 00:00:00 GMT", body := "" } =
      -(10 * second) ∧
    getRetryAfter 0 { statusCode := 429, retryAfterHeader := "soon", body := "" } =
      second := by
  refine ⟨?_, ?_, ?_⟩
  · have h := (getRetryAfter_fallback_policy 0
      { statusCode := 429, retryAfterHeader := "5", body := "" }).2.2.1
      (by decide) (by decide) (by decide)
    rw [h]; decide
  · have h := (getRetryAfter_fallback_policy (10 * second)
      { statusCode := 429,
        retryAfterHeader := "Thu, 01 Jan 1970 00:00:00 GMT", body := "" }).2.2.2.1
      0 (by decide) (by decide) (by decide)
    rw [h.1]; decide
  · exact (getRetryAfter_fallback_policy 0
      { statusCode := 429, retryAfterHeader := "soon", body := "" }).2.2.2.2
      (by decide) (by decide) (by decide)

end FindApi
